import Mathlib

/-!
Shallow embedding of the LexKYFoodScores ingestion and normalization pipeline.

Source files embedded:
* `transform_food_scores.py` — schema normalization (`transform`)
* `JoinScoresViolations.py` — left join of cleaned scores with the code lookup
* `LexFoodScoresExtract.py` — per-page table extraction (`extract_scores`)
* `download_pdf.py` — change-aware document acquisition (`main`, modelled as `acquire`)

CSV cells are modelled as `Option String` (pandas reads them with
`dtype=str`; a missing cell reads as NaN, modelled as `none`). The admission
filter is the semantics of `re.match(r'^\d+$')` — one or more Unicode `Nd`
digits, optionally followed by a single trailing newline, since `$` also
matches just before a newline that ends the string — evaluated through a
mask that is NaN where the cell is NaN; indexing with such a mask raises
pandas' ValueError, modelled as an error result. Dates are modelled
abstractly: `pd.to_datetime(_, errors='coerce')` becomes an arbitrary
parameter `parseDate : String → Option Nat`, with `none` standing for `NaT`
(a NaN date cell is NaT directly), and the subsequent `dropna` becomes a
`filterMap`.
-/

namespace FoodScores

/-- Raw CSV input as pandas sees it: a column count (`df.shape[1]`) and the
data rows. A cell is `Option String`: `none` models NaN, the value a missing
cell reads as even under `dtype=str`. -/
structure RawInput where
  ncols : Nat
  rows : List (List (Option String))
deriving DecidableEq, Repr

/-- A row after the first 8 columns are renamed to `DEFAULT_HEADERS`; every
cell may still be NaN. -/
structure BoundRow where
  permitId : Option String
  establishmentName : Option String
  address : Option String
  dateRaw : Option String
  inspectionType : Option String
  category : Option String
  score : Option String
  violations : Option String
deriving DecidableEq, Repr

/-- A normalized inspection record: the date has been parsed and the
violations column exploded to a single code (`violationCode = none` models
the NaN produced by exploding an empty list). -/
structure NormalizedRecord where
  permitId : Option String
  establishmentName : Option String
  address : Option String
  inspectionDate : Nat
  inspectionType : Option String
  category : Option String
  score : Option String
  violationCode : Option String
deriving DecidableEq, Repr

/-- `schemaShape` is the fewer-than-8-columns exit (line 36, `sys.exit(1)`);
`valueError` is pandas refusing to index with a boolean mask that contains
NaN (line 43, when some `Permit #` cell is missing). -/
inductive TransformError where
  | schemaShape
  | valueError
deriving DecidableEq, Repr

/-- `DEFAULT_HEADERS` from `transform_food_scores.py`: the fixed logical
field names, in the fixed order in which the first 8 raw columns are bound. -/
def DEFAULT_HEADERS : List String :=
  ["Permit #", "Establishment Name", "Address", "Date",
   "Inspection Type", "Food or Retail", "Score", "Violations"]

/-- `data = df.iloc[:, :8]; data.columns = DEFAULT_HEADERS`: positional
binding of the first 8 cells to the logical fields. -/
def bindColumns (row : List (Option String)) : BoundRow :=
  { permitId := row.getD 0 none
    establishmentName := row.getD 1 none
    address := row.getD 2 none
    dateRaw := row.getD 3 none
    inspectionType := row.getD 4 none
    category := row.getD 5 none
    score := row.getD 6 none
    violations := row.getD 7 none }

/-- The Unicode `Nd` (decimal digit) code-point ranges: what Python's `\d`
matches on `str` patterns. -/
def ndRanges : List (Nat × Nat) :=
  [(0x30, 0x39), (0x660, 0x669), (0x6F0, 0x6F9), (0x7C0, 0x7C9),
   (0x966, 0x96F), (0x9E6, 0x9EF), (0xA66, 0xA6F), (0xAE6, 0xAEF),
   (0xB66, 0xB6F), (0xBE6, 0xBEF), (0xC66, 0xC6F), (0xCE6, 0xCEF),
   (0xD66, 0xD6F), (0xDE6, 0xDEF), (0xE50, 0xE59), (0xED0, 0xED9),
   (0xF20, 0xF29), (0x1040, 0x1049), (0x1090, 0x1099), (0x17E0, 0x17E9),
   (0x1810, 0x1819), (0x1946, 0x194F), (0x19D0, 0x19D9), (0x1A80, 0x1A89),
   (0x1A90, 0x1A99), (0x1B50, 0x1B59), (0x1BB0, 0x1BB9), (0x1C40, 0x1C49),
   (0x1C50, 0x1C59), (0xA620, 0xA629), (0xA8D0, 0xA8D9), (0xA900, 0xA909),
   (0xA9D0, 0xA9D9), (0xA9F0, 0xA9F9), (0xAA50, 0xAA59), (0xABF0, 0xABF9),
   (0xFF10, 0xFF19), (0x104A0, 0x104A9), (0x10D30, 0x10D39),
   (0x11066, 0x1106F), (0x110F0, 0x110F9), (0x11136, 0x1113F),
   (0x111D0, 0x111D9), (0x112F0, 0x112F9), (0x11450, 0x11459),
   (0x114D0, 0x114D9), (0x11650, 0x11659), (0x116C0, 0x116C9),
   (0x11730, 0x11739), (0x118E0, 0x118E9), (0x11950, 0x11959),
   (0x11C50, 0x11C59), (0x11D50, 0x11D59), (0x11DA0, 0x11DA9),
   (0x16A60, 0x16A69), (0x16AC0, 0x16AC9), (0x16B50, 0x16B59),
   (0x1D7CE, 0x1D7FF), (0x1E140, 0x1E149), (0x1E2F0, 0x1E2F9),
   (0x1E950, 0x1E959), (0x1FBF0, 0x1FBF9)]

/-- Python's `\d` on a `str` pattern: any Unicode decimal digit
(category `Nd`). -/
def isPyDigit (c : Char) : Bool :=
  ndRanges.any fun r => decide (r.1 ≤ c.toNat) && decide (c.toNat ≤ r.2)

/-- `re.match(r'^\d+$', s) is not None`, as `Series.str.match` evaluates it:
one or more Unicode decimal digits, optionally followed by a single trailing
newline, because `$` also matches just before a newline that ends the
string. -/
def matchesDigitsFull (s : String) : Bool :=
  let cs := if s.data.getLast? = some '\n' then s.data.dropLast else s.data
  !cs.isEmpty && cs.all isPyDigit

/-- The admission pattern as the specification words it: "one or more
digits, nothing else". Kept beside `matchesDigitsFull` (the source's actual
`re.match(r'^\d+$')` semantics) to compare the two readings: they differ
exactly on a trailing newline. -/
def digitsOnlyStrict (s : String) : Bool :=
  !s.isEmpty && s.data.all isPyDigit

/-- One entry of the boolean mask `data['Permit #'].str.match(r'^\d+$')`:
NaN (`none`) for a missing cell, otherwise the match result. -/
def permitMask (r : BoundRow) : Option Bool :=
  r.permitId.map matchesDigitsFull

/-- Whether the permit mask contains a NaN entry — the condition under which
`data[mask]` raises `ValueError: Cannot mask with non-boolean array
containing NA / NaN values` instead of filtering. -/
def maskHasNaN (rows : List (List (Option String))) : Bool :=
  (rows.map fun r => permitMask (bindColumns r)).any Option.isNone

/-- Auxiliary splitter: `acc` holds the current (reversed) run of
non-whitespace characters; a run is emitted when it ends, so no empty piece
is ever produced. -/
def splitWsAux : List Char → List Char → List String
  | [], acc => if acc = [] then [] else [String.mk acc.reverse]
  | c :: cs, acc =>
    if c.isWhitespace then
      (if acc = [] then [] else [String.mk acc.reverse]) ++ splitWsAux cs []
    else
      splitWsAux cs (c :: acc)

/-- Python `str.split()` with no separator: split on whitespace runs,
dropping empty pieces. -/
def splitWs (s : String) : List String :=
  splitWsAux s.data []

/-- `DataFrame.explode` on the list produced by `str.split()`: an empty list
explodes to a single NaN entry; a non-empty list explodes to one entry per
element. -/
def explodeViolations (codes : List String) : List (Option String) :=
  match codes with
  | [] => [none]
  | cs => cs.map some

/-- Build the records a bound row with parsed date `d` contributes, one per
exploded violation entry; the `fillna('')` shows up as `.getD ""` on the
violations cell. -/
def expandRow (r : BoundRow) (d : Nat) : List NormalizedRecord :=
  (explodeViolations (splitWs (r.violations.getD ""))).map fun v =>
    { permitId := r.permitId
      establishmentName := r.establishmentName
      address := r.address
      inspectionDate := d
      inspectionType := r.inspectionType
      category := r.category
      score := r.score
      violationCode := v }

/-- The row-set part of `transform`, stage by stage as the pandas code runs
once the permit mask is known NaN-free: admission filter on `Permit #`,
`to_datetime(errors='coerce')`+`dropna` on `Date` (NaN dates are NaT),
`fillna('')`+`str.split()`+`explode` on `Violations`, then the `!= ''`
cleanup filter. -/
def normalizeRows (parseDate : String → Option Nat)
    (rows : List (List (Option String))) : List NormalizedRecord :=
  let data0 := rows.map bindColumns
  let data1 := data0.filter fun r => (permitMask r).getD false
  let data2 := data1.filterMap fun r =>
    (r.dateRaw.bind parseDate).map fun d => (r, d)
  let data3 := data2.flatMap fun rd => expandRow rd.1 rd.2
  data3.filter fun rec => rec.violationCode != some ""

/-- `transform` from `transform_food_scores.py`: aborts (exit 1) when fewer
than 8 columns exist; crashes with pandas' ValueError when the permit mask
contains NaN; otherwise normalizes the rows. -/
def transform (parseDate : String → Option Nat) (input : RawInput) :
    Except TransformError (List NormalizedRecord) :=
  if input.ncols < DEFAULT_HEADERS.length then .error .schemaShape
  else if maskHasNaN input.rows then .error .valueError
  else .ok (normalizeRows parseDate input.rows)

/-- The records one raw row contributes to the normalized output: nothing if
the permit mask or the date parse rejects it, otherwise one record per
exploded violation entry that survives the `!= ''` filter. -/
def rowRecords (parseDate : String → Option Nat)
    (row : List (Option String)) : List NormalizedRecord :=
  let r := bindColumns row
  if (permitMask r).getD false then
    match r.dateRaw.bind parseDate with
    | some d => (expandRow r d).filter fun rec => rec.violationCode != some ""
    | none => []
  else []

theorem normalizeRows_eq_flatMap (parseDate : String → Option Nat)
    (rows : List (List (Option String))) :
    normalizeRows parseDate rows = rows.flatMap (rowRecords parseDate) := by
  induction rows with
  | nil => rfl
  | cons r rs ih =>
    simp only [normalizeRows] at ih
    simp only [normalizeRows, List.map_cons, List.flatMap_cons]
    by_cases h : (permitMask (bindColumns r)).getD false
    · rw [List.filter_cons_of_pos (by simpa using h)]
      cases hd : (bindColumns r).dateRaw.bind parseDate with
      | some d =>
        simp only [List.filterMap_cons, hd, Option.map_some, Option.map_some',
          List.flatMap_cons, List.filter_append]
        simp only [rowRecords, h, hd, if_pos]
        exact congrArg _ ih
      | none =>
        simp only [List.filterMap_cons, hd, Option.map_none, Option.map_none']
        simp only [rowRecords, h, hd, if_pos]
        simp only [List.nil_append]
        exact ih
    · rw [List.filter_cons_of_neg (by simpa using h)]
      simp only [ih]
      simp [rowRecords, h]

theorem mk_ne_empty {l : List Char} (h : l ≠ []) : String.mk l ≠ "" := by
  intro hc
  apply h
  have hd := congrArg String.data hc
  simpa using hd

theorem mem_splitWsAux_ne_empty {t : String} (cs : List Char) :
    ∀ acc, t ∈ splitWsAux cs acc → t ≠ "" := by
  induction cs with
  | nil =>
    intro acc h
    simp only [splitWsAux] at h
    by_cases hacc : acc = []
    · rw [if_pos hacc] at h
      exact absurd h (List.not_mem_nil t)
    · rw [if_neg hacc, List.mem_singleton] at h
      subst h
      exact mk_ne_empty (by simpa using hacc)
  | cons c cs ih =>
    intro acc h
    simp only [splitWsAux] at h
    by_cases hw : c.isWhitespace
    · rw [if_pos hw, List.mem_append] at h
      cases h with
      | inl h1 =>
        by_cases hacc : acc = []
        · rw [if_pos hacc] at h1
          exact absurd h1 (List.not_mem_nil t)
        · rw [if_neg hacc, List.mem_singleton] at h1
          subst h1
          exact mk_ne_empty (by simpa using hacc)
      | inr h2 => exact ih [] h2
    · rw [if_neg hw] at h
      exact ih (c :: acc) h

theorem mem_splitWs_ne_empty {s t : String} (h : t ∈ splitWs s) : t ≠ "" :=
  mem_splitWsAux_ne_empty s.data [] h

theorem explodeViolations_length (cs : List String) :
    (explodeViolations cs).length = max 1 cs.length := by
  cases cs with
  | nil => rfl
  | cons c t =>
    simp only [explodeViolations, List.length_map, List.length_cons]
    omega

theorem expandRow_filter (r : BoundRow) (d : Nat) :
    (expandRow r d).filter (fun rec => rec.violationCode != some "") =
      expandRow r d := by
  apply List.filter_eq_self.mpr
  intro rec hrec
  simp only [expandRow, List.mem_map] at hrec
  obtain ⟨v, hv, rfl⟩ := hrec
  simp only [bne_iff_ne, ne_eq]
  intro hcontra
  cases hsp : splitWs (r.violations.getD "") with
  | nil =>
    rw [hsp] at hv
    simp only [explodeViolations, List.mem_singleton] at hv
    rw [hv] at hcontra
    exact Option.noConfusion hcontra
  | cons c t =>
    rw [hsp] at hv
    simp only [explodeViolations, List.mem_map] at hv
    obtain ⟨c', hc', rfl⟩ := hv
    have hmem : c' ∈ splitWs (r.violations.getD "") := by rw [hsp]; exact hc'
    exact mem_splitWs_ne_empty hmem (Option.some.inj hcontra)

theorem rowRecords_admitted (parseDate : String → Option Nat)
    (row : List (Option String)) (d : Nat)
    (hp : permitMask (bindColumns row) = some true)
    (hd : (bindColumns row).dateRaw.bind parseDate = some d) :
    rowRecords parseDate row = expandRow (bindColumns row) d := by
  have hp' : (permitMask (bindColumns row)).getD false = true := by
    rw [hp]
    rfl
  simp only [rowRecords, hp', hd, if_pos]
  exact expandRow_filter _ _

theorem transform_ok (parseDate : String → Option Nat) (input : RawInput)
    (h : 8 ≤ input.ncols) (hnan : maskHasNaN input.rows = false) :
    transform parseDate input = .ok (normalizeRows parseDate input.rows) := by
  have hlen : DEFAULT_HEADERS.length = 8 := rfl
  unfold transform
  rw [if_neg (by omega), if_neg (by simp [hnan])]

theorem mem_rowRecords (parseDate : String → Option Nat)
    (row : List (Option String)) (rec : NormalizedRecord)
    (h : rec ∈ rowRecords parseDate row) :
    rec.permitId = row.getD 0 none ∧
    rec.establishmentName = row.getD 1 none ∧
    rec.address = row.getD 2 none ∧
    (row.getD 3 none).bind parseDate = some rec.inspectionDate ∧
    rec.inspectionType = row.getD 4 none ∧
    rec.category = row.getD 5 none ∧
    rec.score = row.getD 6 none := by
  by_cases hp : (permitMask (bindColumns row)).getD false
  · cases hd : (bindColumns row).dateRaw.bind parseDate with
    | some d =>
      simp only [rowRecords, hp, hd, if_pos] at h
      have h2 := (List.mem_filter.mp h).1
      simp only [expandRow, List.mem_map] at h2
      obtain ⟨v, hv, rfl⟩ := h2
      exact ⟨rfl, rfl, rfl, hd, rfl, rfl, rfl⟩
    | none =>
      simp only [rowRecords, hp, hd, if_pos] at h
      exact absurd h (List.not_mem_nil rec)
  · simp only [rowRecords, hp, if_neg] at h
    exact absurd h (List.not_mem_nil rec)

theorem maskHasNaN_middle (pre post : List (List (Option String)))
    (row : List (Option String))
    (h : (permitMask (bindColumns row)).isSome = true) :
    maskHasNaN (pre ++ row :: post) = maskHasNaN (pre ++ post) := by
  have hno : (permitMask (bindColumns row)).isNone = false := by
    cases hm : permitMask (bindColumns row) with
    | none =>
      rw [hm] at h
      exact absurd h (by simp)
    | some b => rfl
  simp only [maskHasNaN, List.map_append, List.map_cons, List.any_append,
    List.any_cons, hno, Bool.false_or]

theorem transform_middle_eq (parseDate : String → Option Nat) (ncols : Nat)
    (pre post : List (List (Option String))) (row : List (Option String))
    (hsome : (permitMask (bindColumns row)).isSome = true)
    (hrr : rowRecords parseDate row = []) :
    transform parseDate { ncols := ncols, rows := pre ++ row :: post } =
      transform parseDate { ncols := ncols, rows := pre ++ post } := by
  unfold transform
  by_cases h8 : ncols < DEFAULT_HEADERS.length
  · rw [if_pos h8, if_pos h8]
  · rw [if_neg h8, if_neg h8]
    have hm := maskHasNaN_middle pre post row hsome
    by_cases hn : maskHasNaN (pre ++ post)
    · rw [hm, if_pos hn, if_pos hn]
    · rw [hm, if_neg hn, if_neg hn]
      congr 1
      rw [normalizeRows_eq_flatMap, normalizeRows_eq_flatMap]
      simp only [List.flatMap_append, List.flatMap_cons, hrr, List.nil_append]

/-- Sample date parser used to instantiate the abstract
`pd.to_datetime` parameter on concrete inputs. -/
def pdSample (s : String) : Option Nat :=
  if s = "2024-07-01" then some 20240701 else none

/-- C4: an admitted row (permit matching the admission regex, parseable
date) contributes exactly `max 1 N` records, where `N` is the number of
whitespace-separated violation codes, all records identical except for
`violationCode`, whose values are exactly the exploded code list. -/
theorem transform_expands_admitted_row (parseDate : String → Option Nat)
    (input : RawInput) (pre post : List (List (Option String)))
    (row : List (Option String)) (d : Nat)
    (hrows : input.rows = pre ++ row :: post)
    (hcols : 8 ≤ input.ncols)
    (hnan : maskHasNaN input.rows = false)
    (hpermit : permitMask (bindColumns row) = some true)
    (hdate : (row.getD 3 none).bind parseDate = some d) :
    transform parseDate input =
      .ok (normalizeRows parseDate pre ++ rowRecords parseDate row ++
        normalizeRows parseDate post) ∧
    (rowRecords parseDate row).length =
      max 1 (splitWs ((row.getD 7 none).getD "")).length ∧
    (∀ rec ∈ rowRecords parseDate row,
      rec.permitId = row.getD 0 none ∧
      rec.establishmentName = row.getD 1 none ∧
      rec.address = row.getD 2 none ∧ rec.inspectionDate = d ∧
      rec.inspectionType = row.getD 4 none ∧
      rec.category = row.getD 5 none ∧
      rec.score = row.getD 6 none) ∧
    (rowRecords parseDate row).map (fun rec => rec.violationCode) =
      explodeViolations (splitWs ((row.getD 7 none).getD "")) := by
  have hrr := rowRecords_admitted parseDate row d hpermit hdate
  refine ⟨?_, ?_, ?_, ?_⟩
  · rw [transform_ok parseDate input hcols hnan, hrows]
    rw [normalizeRows_eq_flatMap, normalizeRows_eq_flatMap, normalizeRows_eq_flatMap]
    simp [List.flatMap_append]
  · rw [hrr]
    simp only [expandRow, List.length_map]
    exact explodeViolations_length _
  · intro rec hrec
    rw [hrr] at hrec
    simp only [expandRow, List.mem_map] at hrec
    obtain ⟨v, hv, rfl⟩ := hrec
    exact ⟨rfl, rfl, rfl, rfl, rfl, rfl, rfl⟩
  · rw [hrr]
    simp only [expandRow, List.map_map]
    exact List.map_id _

/-- Sample admitted row with two violation codes, used to instantiate
claim theorems on concrete data. -/
def sampleRow : List (Option String) :=
  [some "123", some "E", some "A", some "2024-07-01", some "T", some "F",
   some "90", some "3-301.11 3-302.12"]

/-- C4 witness: the claim theorem instantiated on a concrete admitted row
with two violation codes. -/
theorem transform_expands_admitted_row_witness :
    transform pdSample { ncols := 8, rows := [sampleRow] } =
      .ok (normalizeRows pdSample [] ++ rowRecords pdSample sampleRow ++
        normalizeRows pdSample []) ∧
    (rowRecords pdSample sampleRow).length =
      max 1 (splitWs ((sampleRow.getD 7 none).getD "")).length ∧
    (∀ rec ∈ rowRecords pdSample sampleRow,
      rec.permitId = sampleRow.getD 0 none ∧
      rec.establishmentName = sampleRow.getD 1 none ∧
      rec.address = sampleRow.getD 2 none ∧ rec.inspectionDate = 20240701 ∧
      rec.inspectionType = sampleRow.getD 4 none ∧
      rec.category = sampleRow.getD 5 none ∧
      rec.score = sampleRow.getD 6 none) ∧
    (rowRecords pdSample sampleRow).map (fun rec => rec.violationCode) =
      explodeViolations (splitWs ((sampleRow.getD 7 none).getD "")) :=
  transform_expands_admitted_row pdSample _ [] [] sampleRow 20240701 rfl
    (by decide) (by decide) (by decide) (by decide)

/-- C5 counterexample: a row whose violations cell trims to zero codes is
not dropped — it yields exactly one record, with a null violation code.
(`str.split()` of whitespace gives `[]`, `explode` of `[]` gives NaN, and
the `!= ''` cleanup does not remove NaN.) -/
theorem transform_zero_codes_counterexample :
    splitWs "  " = [] ∧
    transform pdSample
        { ncols := 8,
          rows := [[some "123", some "E", some "A", some "2024-07-01",
            some "T", some "F", some "90", some "  "]] } =
      .ok [{ permitId := some "123", establishmentName := some "E",
             address := some "A", inspectionDate := 20240701,
             inspectionType := some "T", category := some "F",
             score := some "90", violationCode := none }] := by
  exact ⟨rfl, rfl⟩

/-- C5 amended: an admitted row whose violations field contains zero codes
after trimming is NOT dropped; it contributes exactly one normalized record
whose `violationCode` is null. -/
theorem transform_zero_codes_null_record (parseDate : String → Option Nat)
    (input : RawInput) (pre post : List (List (Option String)))
    (row : List (Option String)) (d : Nat)
    (hrows : input.rows = pre ++ row :: post)
    (hcols : 8 ≤ input.ncols)
    (hnan : maskHasNaN input.rows = false)
    (hpermit : permitMask (bindColumns row) = some true)
    (hdate : (row.getD 3 none).bind parseDate = some d)
    (hzero : splitWs ((row.getD 7 none).getD "") = []) :
    rowRecords parseDate row =
      [{ permitId := row.getD 0 none, establishmentName := row.getD 1 none,
         address := row.getD 2 none, inspectionDate := d,
         inspectionType := row.getD 4 none, category := row.getD 5 none,
         score := row.getD 6 none, violationCode := none }] ∧
    transform parseDate input =
      .ok (normalizeRows parseDate pre ++ rowRecords parseDate row ++
        normalizeRows parseDate post) := by
  have hrr := rowRecords_admitted parseDate row d hpermit hdate
  constructor
  · rw [hrr]
    have hz : splitWs ((bindColumns row).violations.getD "") = [] := hzero
    simp only [expandRow, hz, explodeViolations, List.map_cons, List.map_nil]
    rfl
  · rw [transform_ok parseDate input hcols hnan, hrows]
    rw [normalizeRows_eq_flatMap, normalizeRows_eq_flatMap, normalizeRows_eq_flatMap]
    simp [List.flatMap_append]

/-- C5 amended witness: concrete admitted row with a whitespace-only
violations cell. -/
theorem transform_zero_codes_null_record_witness :
    rowRecords pdSample
        [some "77", some "E2", some "A2", some "2024-07-01", some "T2",
         some "F2", some "95", some " "] =
      [{ permitId := some "77", establishmentName := some "E2",
         address := some "A2", inspectionDate := 20240701,
         inspectionType := some "T2", category := some "F2",
         score := some "95", violationCode := none }] ∧
    transform pdSample
        { ncols := 9,
          rows := [[some "77", some "E2", some "A2", some "2024-07-01",
            some "T2", some "F2", some "95", some " "]] } =
      .ok (normalizeRows pdSample [] ++
        rowRecords pdSample
          [some "77", some "E2", some "A2", some "2024-07-01", some "T2",
           some "F2", some "95", some " "] ++
        normalizeRows pdSample []) :=
  transform_zero_codes_null_record pdSample _ [] []
    [some "77", some "E2", some "A2", some "2024-07-01", some "T2",
     some "F2", some "95", some " "] 20240701 rfl
    (by decide) (by decide) (by decide) (by decide) (by decide)

/-- C6 counterexample: the admission filter is `re.match(r'^\d+$')`, whose
`$` also matches just before a trailing newline; the permit `"123\n"` is not
a string of one or more digits and nothing else, yet the row is admitted and
yields a record. -/
theorem transform_newline_permit_counterexample :
    digitsOnlyStrict "123\n" = false ∧
    matchesDigitsFull "123\n" = true ∧
    transform pdSample
        { ncols := 8,
          rows := [[some "123\n", some "E", some "A", some "2024-07-01",
            some "T", some "F", some "90", some "3-301.11"]] } =
      .ok [{ permitId := some "123\n", establishmentName := some "E",
             address := some "A", inspectionDate := 20240701,
             inspectionType := some "T", category := some "F",
             score := some "90", violationCode := some "3-301.11" }] := by
  exact ⟨rfl, rfl, rfl⟩

/-- C6 amended: a row whose permit cell is present but fails
`re.match(r'^\d+$')` (one or more Unicode decimal digits, optionally
followed by a single trailing newline) contributes no record — the transform
output with the row equals the output without it; a row whose permit cell is
missing instead aborts the whole transform with pandas' mask ValueError. -/
theorem transform_rejects_unmatched_permit (parseDate : String → Option Nat)
    (ncols : Nat) (pre post : List (List (Option String)))
    (row : List (Option String)) (s : String)
    (hcell : row.getD 0 none = some s)
    (hmatch : matchesDigitsFull s = false) :
    (transform parseDate { ncols := ncols, rows := pre ++ row :: post } =
      transform parseDate { ncols := ncols, rows := pre ++ post }) ∧
    ∀ input2 : RawInput, 8 ≤ input2.ncols → maskHasNaN input2.rows = true →
      transform parseDate input2 = .error .valueError := by
  have hmask : permitMask (bindColumns row) = some false := by
    have hc : (bindColumns row).permitId = some s := hcell
    simp only [permitMask, hc, Option.map_some, Option.map_some', hmatch]
  constructor
  · apply transform_middle_eq parseDate ncols pre post row
    · rw [hmask]
      rfl
    · have hm : (permitMask (bindColumns row)).getD false = false := by
        rw [hmask]
        rfl
      simp [rowRecords, hm]
  · intro input2 h8 hn
    have hlen : DEFAULT_HEADERS.length = 8 := rfl
    unfold transform
    rw [if_neg (by omega), if_pos hn]

/-- C6 amended witness: a present non-matching permit cell is dropped; a
missing permit cell crashes the transform. -/
theorem transform_rejects_unmatched_permit_witness :
    (transform pdSample
        { ncols := 8,
          rows := [[some "ABC123", some "E", some "A", some "2024-07-01",
            some "T", some "F", some "90", some "3-301.11"]] } =
      transform pdSample { ncols := 8, rows := [] }) ∧
    transform pdSample
        { ncols := 8,
          rows := [[none, some "E", some "A", some "2024-07-01",
            some "T", some "F", some "90", some "3-301.11"]] } =
      .error .valueError :=
  ⟨(transform_rejects_unmatched_permit pdSample 8 [] []
      [some "ABC123", some "E", some "A", some "2024-07-01",
       some "T", some "F", some "90", some "3-301.11"] "ABC123"
      (by decide) (by decide)).1,
   (transform_rejects_unmatched_permit pdSample 8 [] []
      [some "ABC123", some "E", some "A", some "2024-07-01",
       some "T", some "F", some "90", some "3-301.11"] "ABC123"
      (by decide) (by decide)).2
     { ncols := 8,
       rows := [[none, some "E", some "A", some "2024-07-01",
         some "T", some "F", some "90", some "3-301.11"]] }
     (by decide) (by decide)⟩

/-- C7: a row that passes the permit mask but whose date cell does not parse
is dropped (`to_datetime(errors='coerce')` then `dropna`); no default date
is ever assigned because the row vanishes from the output. -/
theorem transform_drops_unparsable_date (parseDate : String → Option Nat)
    (ncols : Nat) (pre post : List (List (Option String)))
    (row : List (Option String))
    (hpermit : permitMask (bindColumns row) = some true)
    (hdate : (row.getD 3 none).bind parseDate = none) :
    transform parseDate { ncols := ncols, rows := pre ++ row :: post } =
      transform parseDate { ncols := ncols, rows := pre ++ post } := by
  apply transform_middle_eq parseDate ncols pre post row
  · rw [hpermit]
    rfl
  · have hp : (permitMask (bindColumns row)).getD false = true := by
      rw [hpermit]
      rfl
    have hd : (bindColumns row).dateRaw.bind parseDate = none := hdate
    simp [rowRecords, hp, hd]

/-- C7 witness: a digit-only permit with a garbage date is dropped. -/
theorem transform_drops_unparsable_date_witness :
    transform pdSample
        { ncols := 8,
          rows := [[some "456", some "E", some "A", some "not-a-date",
            some "T", some "F", some "90", some "3-301.11"]] } =
      transform pdSample { ncols := 8, rows := [] } :=
  transform_drops_unparsable_date pdSample 8 [] []
    [some "456", some "E", some "A", some "not-a-date",
     some "T", some "F", some "90", some "3-301.11"] (by decide) (by decide)

/-- C8: fewer than 8 columns aborts with the schema-shape error and produces
no normalized output; with at least 8 columns that error never occurs, and
whenever the transform produces output, every output record draws its fields
from positions 0–7 of some input row, in the fixed `DEFAULT_HEADERS` order.
(With at least 8 columns the run can still abort — with the mask ValueError,
not the schema error — when a permit cell is missing.) -/
theorem transform_schema_shape (parseDate : String → Option Nat)
    (input : RawInput) :
    (input.ncols < DEFAULT_HEADERS.length →
      transform parseDate input = .error .schemaShape) ∧
    (8 ≤ input.ncols →
      transform parseDate input ≠ .error .schemaShape ∧
      ∀ recs, transform parseDate input = .ok recs →
        ∀ rec ∈ recs, ∃ row, row ∈ input.rows ∧
          rec.permitId = row.getD 0 none ∧
          rec.establishmentName = row.getD 1 none ∧
          rec.address = row.getD 2 none ∧
          (row.getD 3 none).bind parseDate = some rec.inspectionDate ∧
          rec.inspectionType = row.getD 4 none ∧
          rec.category = row.getD 5 none ∧
          rec.score = row.getD 6 none) := by
  have hlen : DEFAULT_HEADERS.length = 8 := rfl
  constructor
  · intro h
    unfold transform
    rw [if_pos h]
  · intro h
    constructor
    · unfold transform
      rw [if_neg (by omega)]
      by_cases hn : maskHasNaN input.rows
      · rw [if_pos hn]
        intro hc
        exact TransformError.noConfusion (Except.error.inj hc)
      · rw [if_neg hn]
        intro hc
        exact Except.noConfusion hc
    · intro recs hok rec hrec
      unfold transform at hok
      rw [if_neg (by omega)] at hok
      by_cases hn : maskHasNaN input.rows
      · rw [if_pos hn] at hok
        exact absurd hok (fun hc => Except.noConfusion hc)
      · rw [if_neg hn] at hok
        have hrecs : recs = normalizeRows parseDate input.rows :=
          (Except.ok.inj hok).symm
        subst hrecs
        rw [normalizeRows_eq_flatMap, List.mem_flatMap] at hrec
        obtain ⟨row, hrow, hmem⟩ := hrec
        exact ⟨row, hrow, mem_rowRecords parseDate row rec hmem⟩

/-- C8 witness: a 7-column input aborts with the schema error; an 8-column
input does not, and its concrete output records carry the positional field
binding. -/
theorem transform_schema_shape_witness :
    transform pdSample { ncols := 7, rows := [] } = .error .schemaShape ∧
    (transform pdSample { ncols := 8, rows := [sampleRow] } ≠
      .error .schemaShape ∧
     ∀ recs, transform pdSample { ncols := 8, rows := [sampleRow] } = .ok recs →
       ∀ rec ∈ recs, ∃ row, row ∈ [sampleRow] ∧
         rec.permitId = row.getD 0 none ∧
         rec.establishmentName = row.getD 1 none ∧
         rec.address = row.getD 2 none ∧
         (row.getD 3 none).bind pdSample = some rec.inspectionDate ∧
         rec.inspectionType = row.getD 4 none ∧
         rec.category = row.getD 5 none ∧
         rec.score = row.getD 6 none) :=
  ⟨(transform_schema_shape pdSample { ncols := 7, rows := [] }).1 (by decide),
   (transform_schema_shape pdSample { ncols := 8, rows := [sampleRow] }).2
     (by decide)⟩

/-- A row of the cleaned scores CSV as `JoinScoresViolations.py` reads it:
the join key (the `Violations` column) plus the remaining cells. -/
structure InspectionRow where
  violations : String
  rest : List String
deriving DecidableEq, Repr

/-- A row of `CodeViolations.csv`: the `Violation Code` key plus the
remaining cells (description etc.). -/
structure CodeRow where
  code : String
  rest : List String
deriving DecidableEq, Repr

/-- One merged row: left columns always present, right columns nullable. -/
structure JoinedRow where
  left : InspectionRow
  right : Option CodeRow
deriving DecidableEq, Repr

/-- The rows one left row contributes to the merge: one per matching right
row (in right-table order), or a single row with null right columns when no
match exists. -/
def mergeRow (codes : List CodeRow) (s : InspectionRow) : List JoinedRow :=
  match codes.filter (fun c => c.code == s.violations) with
  | [] => [{ left := s, right := none }]
  | m :: ms => (m :: ms).map fun c => { left := s, right := some c }

/-- `df_scores.merge(df_codes, how='left', left_on='Violations',
right_on='Violation Code')`. -/
def leftMerge (scores : List InspectionRow) (codes : List CodeRow) :
    List JoinedRow :=
  scores.flatMap (mergeRow codes)

theorem filter_code_length_le_one (codes : List CodeRow) (k : String)
    (hdist : (codes.map (fun c => c.code)).Nodup) :
    (codes.filter (fun c => c.code == k)).length ≤ 1 := by
  induction codes with
  | nil => simp
  | cons c cs ih =>
    simp only [List.map_cons, List.nodup_cons] at hdist
    obtain ⟨hnot, hdist'⟩ := hdist
    by_cases h : c.code = k
    · rw [List.filter_cons_of_pos (by simpa using h)]
      have hnil : cs.filter (fun c' => c'.code == k) = [] := by
        rw [List.filter_eq_nil_iff]
        intro c' hc'
        simp only [beq_iff_eq]
        intro hck
        apply hnot
        rw [List.mem_map]
        exact ⟨c', hc', by rw [hck, h]⟩
      rw [hnil]
      simp
    · rw [List.filter_cons_of_neg (by simpa using h)]
      exact ih hdist'

theorem mergeRow_length (codes : List CodeRow) (s : InspectionRow)
    (hdist : (codes.map (fun c => c.code)).Nodup) :
    (mergeRow codes s).length = 1 := by
  unfold mergeRow
  cases hf : codes.filter (fun c => c.code == s.violations) with
  | nil => rfl
  | cons m ms =>
    have hle := filter_code_length_le_one codes s.violations hdist
    rw [hf] at hle
    simp only [List.length_cons] at hle
    have hms : ms = [] := List.length_eq_zero.mp (by omega)
    subst hms
    rfl

/-- C3: with pairwise-distinct lookup codes the left merge emits exactly one
row per inspection record, and an inspection record with no matching code
still appears, with null lookup columns. -/
theorem leftMerge_total (scores : List InspectionRow) (codes : List CodeRow)
    (hdist : (codes.map (fun c => c.code)).Nodup) :
    (leftMerge scores codes).length = scores.length ∧
    ∀ s ∈ scores, (∀ c ∈ codes, c.code ≠ s.violations) →
      ({ left := s, right := none } : JoinedRow) ∈ leftMerge scores codes := by
  constructor
  · induction scores with
    | nil => rfl
    | cons s ss ih =>
      simp only [leftMerge, List.flatMap_cons, List.length_append,
        List.length_cons]
      simp only [leftMerge] at ih
      rw [ih, mergeRow_length codes s hdist]
      omega
  · intro s hs hnomatch
    rw [leftMerge, List.mem_flatMap]
    refine ⟨s, hs, ?_⟩
    have hnil : codes.filter (fun c => c.code == s.violations) = [] := by
      rw [List.filter_eq_nil_iff]
      intro c hc
      simpa using hnomatch c hc
    rw [mergeRow, hnil]
    exact List.mem_singleton.mpr rfl

/-- C3 witness: two inspection rows, a one-entry lookup; one row matches,
the other has no match and survives with null lookup columns. -/
theorem leftMerge_total_witness :
    (leftMerge
        [{ violations := "3-301.11", rest := ["x"] },
         { violations := "9-999.99", rest := [] }]
        [{ code := "3-301.11", rest := ["Food contact surfaces"] }]).length = 2 ∧
    ∀ s ∈ [({ violations := "3-301.11", rest := ["x"] } : InspectionRow),
           { violations := "9-999.99", rest := [] }],
      (∀ c ∈ [({ code := "3-301.11", rest := ["Food contact surfaces"] } : CodeRow)],
        c.code ≠ s.violations) →
      ({ left := s, right := none } : JoinedRow) ∈
        leftMerge
          [{ violations := "3-301.11", rest := ["x"] },
           { violations := "9-999.99", rest := [] }]
          [{ code := "3-301.11", rest := ["Food contact surfaces"] }] :=
  leftMerge_total
    [{ violations := "3-301.11", rest := ["x"] },
     { violations := "9-999.99", rest := [] }]
    [{ code := "3-301.11", rest := ["Food contact surfaces"] }] (by decide)

inductive ExtractError where
  | noPages
deriving DecidableEq, Repr

/-- The growing scores CSV artifact: whether a header line has been written
and the data rows appended so far. -/
structure CSVFile where
  hasHeader : Bool
  rows : List (List String)
deriving DecidableEq, Repr

/-- One extracted table row with the four provenance cells appended
(`ScrapeDate`, `Page`, `Table`, `SourceFile`). -/
def provRow (scrapeDate sourceFile : String) (page tbl : Nat)
    (r : List String) : List String :=
  r ++ [scrapeDate, toString page, toString tbl, sourceFile]

/-- `df_page.to_csv(output_csv, mode="a", header=first_write)`: append the
table's rows to the artifact, creating it if absent; the header is written
only while `first_write` is set, and `first_write` clears after the first
append. -/
def appendTable (scrapeDate sourceFile : String) (page tbl : Nat)
    (t : List (List String)) (st : Option CSVFile × Bool) :
    Option CSVFile × Bool :=
  let newRows := t.map (provRow scrapeDate sourceFile page tbl)
  match st.1 with
  | none => (some { hasHeader := st.2, rows := newRows }, false)
  | some f =>
      (some { hasHeader := f.hasHeader || st.2, rows := f.rows ++ newRows },
       false)

/-- The inner loop `for table_idx, table in enumerate(tables, start=1)`. -/
def extractTables (scrapeDate sourceFile : String) (page : Nat) :
    Nat → List (List (List String)) → Option CSVFile × Bool →
      Option CSVFile × Bool
  | _, [], st => st
  | tbl, t :: ts, st =>
      extractTables scrapeDate sourceFile page (tbl + 1) ts
        (appendTable scrapeDate sourceFile page tbl t st)

/-- The outer loop `for page_num in range(1, total_pages + 1)`. -/
def extractPages (scrapeDate sourceFile : String) :
    Nat → List (List (List (List String))) → Option CSVFile × Bool →
      Option CSVFile × Bool
  | _, [], st => st
  | pg, p :: ps, st =>
      extractPages scrapeDate sourceFile (pg + 1) ps
        (extractTables scrapeDate sourceFile pg 1 p st)

/-- `extract_scores` from `LexFoodScoresExtract.py`: fails when the document
reports zero pages, otherwise walks pages and their detected tables in
order, appending each table's rows (with provenance) to the output
artifact. `existing` is the artifact state found at `output_csv` before the
run (`first_write = not os.path.exists(output_csv)`). -/
def extract_scores (doc : List (List (List (List String))))
    (scrapeDate sourceFile : String) (existing : Option CSVFile) :
    Except ExtractError (Option CSVFile) :=
  if doc.length < 1 then .error .noPages
  else
    .ok (extractPages scrapeDate sourceFile 1 doc (existing, existing.isNone)).1

/-- The provenance-tagged rows of the tables of one page, indices starting
at `tbl`. -/
def tablesRows (scrapeDate sourceFile : String) (page : Nat) :
    Nat → List (List (List String)) → List (List String)
  | _, [] => []
  | tbl, t :: ts =>
      t.map (provRow scrapeDate sourceFile page tbl) ++
        tablesRows scrapeDate sourceFile page (tbl + 1) ts

/-- All provenance-tagged rows of a document, page indices starting at
`pg`. -/
def pagesRows (scrapeDate sourceFile : String) :
    Nat → List (List (List (List String))) → List (List String)
  | _, [] => []
  | pg, p :: ps =>
      tablesRows scrapeDate sourceFile pg 1 p ++
        pagesRows scrapeDate sourceFile (pg + 1) ps

theorem extractTables_some (sd sf : String) (page : Nat) (ts : List (List (List String))) :
    ∀ (tbl : Nat) (f : CSVFile),
      extractTables sd sf page tbl ts (some f, false) =
        (some { hasHeader := f.hasHeader,
                rows := f.rows ++ tablesRows sd sf page tbl ts }, false) := by
  induction ts with
  | nil =>
    intro tbl f
    simp [extractTables, tablesRows]
  | cons t ts ih =>
    intro tbl f
    simp only [extractTables, appendTable, Bool.or_false]
    rw [ih]
    simp [tablesRows, List.append_assoc]

theorem extractPages_some (sd sf : String) (ps : List (List (List (List String)))) :
    ∀ (pg : Nat) (f : CSVFile),
      extractPages sd sf pg ps (some f, false) =
        (some { hasHeader := f.hasHeader,
                rows := f.rows ++ pagesRows sd sf pg ps }, false) := by
  induction ps with
  | nil =>
    intro pg f
    simp [extractPages, pagesRows]
  | cons p ps ih =>
    intro pg f
    simp only [extractPages]
    rw [extractTables_some, ih]
    simp [pagesRows, List.append_assoc]

theorem extractTables_none (sd sf : String) (page : Nat)
    (ts : List (List (List String))) :
    ∀ (tbl : Nat) (b : Bool),
      extractTables sd sf page tbl ts (none, b) =
        (if ts.isEmpty then (none, b)
         else (some { hasHeader := b, rows := tablesRows sd sf page tbl ts },
               false)) := by
  cases ts with
  | nil => intro tbl b; simp [extractTables]
  | cons t ts =>
    intro tbl b
    simp only [extractTables, appendTable, List.isEmpty_cons, if_neg]
    rw [extractTables_some]
    simp [tablesRows]

theorem extractPages_none (sd sf : String) (ps : List (List (List (List String)))) :
    ∀ (pg : Nat) (b : Bool),
      extractPages sd sf pg ps (none, b) =
        (if ps.all List.isEmpty then (none, b)
         else (some { hasHeader := b, rows := pagesRows sd sf pg ps },
               false)) := by
  induction ps with
  | nil => intro pg b; simp [extractPages]
  | cons p ps ih =>
    intro pg b
    simp only [extractPages]
    rw [extractTables_none]
    cases hp : p.isEmpty with
    | true =>
      have hpnil : p = [] := List.isEmpty_iff.mp hp
      subst hpnil
      rw [if_pos rfl, ih]
      simp only [List.all_cons, List.isEmpty_nil, Bool.true_and]
      by_cases hall : ps.all List.isEmpty
      · rw [if_pos hall, if_pos hall]
      · rw [if_neg hall, if_neg hall]
        simp [pagesRows, tablesRows]
    | false =>
      rw [if_neg (by simp [hp])]
      rw [extractPages_some]
      have hall : (p :: ps).all List.isEmpty = false := by
        simp only [List.all_cons, hp, Bool.false_and]
      rw [hall]
      simp [pagesRows]

/-- C2 counterexample: re-running `extract_scores` on an artifact left by a
single run does not reproduce that artifact — the rows are appended a second
time, so extraction is not idempotent. -/
theorem extract_scores_not_idempotent_counterexample :
    extract_scores [[[["a"]]]] "d" "s" none =
      .ok (some { hasHeader := true, rows := [["a", "d", "1", "1", "s"]] }) ∧
    extract_scores [[[["a"]]]] "d" "s"
        (some { hasHeader := true, rows := [["a", "d", "1", "1", "s"]] }) =
      .ok (some { hasHeader := true,
                  rows := [["a", "d", "1", "1", "s"], ["a", "d", "1", "1", "s"]] }) ∧
    some ({ hasHeader := true,
            rows := [["a", "d", "1", "1", "s"], ["a", "d", "1", "1", "s"]] } : CSVFile) ≠
      some ({ hasHeader := true, rows := [["a", "d", "1", "1", "s"]] } : CSVFile) := by
  refine ⟨rfl, rfl, ?_⟩
  decide

/-- C2 amended: `extract_scores` appends to an existing output artifact (the
header is written only when the file was absent), so a second run over the
artifact produced by a first run yields the same header flag with the
extracted rows duplicated, not an identical artifact. -/
theorem extract_scores_appends (doc : List (List (List (List String))))
    (sd sf : String) (f1 : CSVFile)
    (h : extract_scores doc sd sf none = .ok (some f1)) :
    extract_scores doc sd sf (some f1) =
      .ok (some { hasHeader := f1.hasHeader, rows := f1.rows ++ f1.rows }) := by
  unfold extract_scores at h ⊢
  by_cases hd : doc.length < 1
  · rw [if_pos hd] at h
    exact absurd h (by simp)
  · rw [if_neg hd] at h ⊢
    have h1 := Except.ok.inj h
    simp only [Option.isNone_none] at h1
    rw [extractPages_none] at h1
    by_cases hall : doc.all List.isEmpty
    · rw [if_pos hall] at h1
      exact absurd h1 (by simp)
    · rw [if_neg hall] at h1
      have h2 := Option.some.inj h1
      simp only [Option.isNone_some]
      rw [extractPages_some]
      rw [← h2]

/-- C2 amended witness: the concrete one-page, one-table, one-row document.
-/
theorem extract_scores_appends_witness :
    extract_scores [[[["b"]]]] "d2" "s2"
        (some { hasHeader := true, rows := [["b", "d2", "1", "1", "s2"]] }) =
      .ok (some { hasHeader := true,
                  rows := [["b", "d2", "1", "1", "s2"]] ++
                    [["b", "d2", "1", "1", "s2"]] }) :=
  extract_scores_appends [[[["b"]]]] "d2" "s2"
    { hasHeader := true, rows := [["b", "d2", "1", "1", "s2"]] } rfl

/-- C9: a document reporting zero pages fails with the no-pages error, while
a non-empty document always succeeds, and a page on which zero tables were
detected contributes nothing to the run (the loop just moves to the next
page number). -/
theorem extract_scores_boundary (doc : List (List (List (List String))))
    (sd sf : String) (existing : Option CSVFile) (pg : Nat)
    (ps : List (List (List (List String)))) (st : Option CSVFile × Bool) :
    (doc = [] → extract_scores doc sd sf existing = .error .noPages) ∧
    (doc ≠ [] → ∃ out, extract_scores doc sd sf existing = .ok out) ∧
    extractPages sd sf pg ([] :: ps) st = extractPages sd sf (pg + 1) ps st := by
  refine ⟨?_, ?_, ?_⟩
  · intro h
    subst h
    rfl
  · intro h
    refine ⟨(extractPages sd sf 1 doc (existing, existing.isNone)).1, ?_⟩
    unfold extract_scores
    rw [if_neg (by simp [List.length_eq_zero, h])]
  · rfl

/-- C9 witness: a zero-page document errors; a document whose first page has
zero tables succeeds, that page contributing nothing. -/
theorem extract_scores_boundary_witness :
    extract_scores [] "d" "s" none = .error .noPages ∧
    (∃ out, extract_scores [[], [[["a"]]]] "d" "s" none = .ok out) ∧
    extractPages "d" "s" 1 ([] :: [[[["a"]]]]) (none, true) =
      extractPages "d" "s" 2 [[[["a"]]]] (none, true) :=
  ⟨(extract_scores_boundary [] "d" "s" none 1 [] (none, true)).1 rfl,
   (extract_scores_boundary [[], [[["a"]]]] "d" "s" none 1 [[[["a"]]]]
      (none, true)).2.1 (List.cons_ne_nil _ _),
   (extract_scores_boundary [[], [[["a"]]]] "d" "s" none 1 [[[["a"]]]]
      (none, true)).2.2⟩

/-- File content, as a byte list. -/
abbrev Bytes := List Nat

/-- The destination directory: a name-to-content association list. -/
abbrev FileSystem := List (String × Bytes)

def lookupFile (fs : FileSystem) (name : String) : Option Bytes :=
  match fs.find? (fun e => e.1 == name) with
  | some e => some e.2
  | none => none

/-- Writing `content` at `name`: replaces any existing entry. -/
def setFile (fs : FileSystem) (name : String) (content : Bytes) : FileSystem :=
  (name, content) :: fs.filter (fun e => e.1 != name)

/-- `os.path.splitext` on a bare filename: split at the last dot. -/
def splitExt (s : String) : String × String :=
  let rev := s.data.reverse
  let extRev := rev.takeWhile (fun c => c != '.')
  if extRev.length = rev.length then (s, "")
  else
    (String.mk ((rev.drop (extRev.length + 1)).reverse),
     String.mk ('.' :: extRev.reverse))

/-- `historical_filename = f"{base_name}_{timestamp}{ext}"`. -/
def historicalName (filename timestamp : String) : String :=
  (splitExt filename).1 ++ "_" ++ timestamp ++ (splitExt filename).2

structure AcquisitionResult where
  fs : FileSystem
  changed : Bool
deriving DecidableEq, Repr

/-- The unconditional tail of `main` in `download_pdf.py`: the fetched bytes
stand at the current name, then `shutil.copy2` writes the timestamped
historical copy. -/
def finishDownload (fs : FileSystem) (filename timestamp : String)
    (fetched : Bytes) : AcquisitionResult :=
  let fs1 := setFile fs filename fetched
  { fs := setFile fs1 (historicalName filename timestamp) fetched,
    changed := true }

/-- The acquisition logic of `main` in `download_pdf.py`. `fp` abstracts
`calculate_md5`; `fetched` is the body the downloader retrieves. When the
current file exists and `force` is off, matching digests exit early with no
writes; otherwise the download completes and the historical copy is
created. -/
def acquire (fp : Bytes → Nat) (force : Bool) (filename timestamp : String)
    (fetched : Bytes) (fs : FileSystem) : AcquisitionResult :=
  match lookupFile fs filename, force with
  | some existing, false =>
      if fp existing = fp fetched then { fs := fs, changed := false }
      else finishDownload fs filename timestamp fetched
  | _, _ => finishDownload fs filename timestamp fetched

theorem lookupFile_setFile_same (fs : FileSystem) (name : String)
    (content : Bytes) :
    lookupFile (setFile fs name content) name = some content := by
  simp [lookupFile, setFile, List.find?_cons_of_pos]

theorem find?_filter_ne (fs : FileSystem) (name other : String)
    (h : other ≠ name) :
    (fs.filter (fun e => e.1 != name)).find? (fun e => e.1 == other) =
      fs.find? (fun e => e.1 == other) := by
  induction fs with
  | nil => rfl
  | cons e es ih =>
    by_cases he : e.1 = name
    · rw [List.filter_cons_of_neg (by simp [he])]
      rw [List.find?_cons_of_neg es (by simp [he]; exact fun hc => h hc.symm)]
      exact ih
    · rw [List.filter_cons_of_pos (by simp [he])]
      by_cases hp : e.1 = other
      · rw [List.find?_cons_of_pos _ (by simp [hp]),
          List.find?_cons_of_pos _ (by simp [hp])]
      · rw [List.find?_cons_of_neg _ (by simp [hp]),
          List.find?_cons_of_neg _ (by simp [hp])]
        exact ih

theorem lookupFile_setFile_other (fs : FileSystem) (name other : String)
    (content : Bytes) (h : other ≠ name) :
    lookupFile (setFile fs name content) other = lookupFile fs other := by
  simp only [lookupFile, setFile]
  rw [List.find?_cons_of_neg _ (by simp; exact fun hc => h hc.symm)]
  rw [find?_filter_ne fs name other h]

theorem acquire_force (fp : Bytes → Nat) (filename timestamp : String)
    (fetched : Bytes) (fs : FileSystem) :
    acquire fp true filename timestamp fetched fs =
      finishDownload fs filename timestamp fetched := by
  unfold acquire
  cases lookupFile fs filename <;> rfl

/-- C1: when the current file exists, `force` is off, and the fetched bytes
fingerprint equal to the existing file's fingerprint, the run reports no
change and performs no writes at all — the directory (current file and all
historical copies) is returned untouched, and no new historical copy
appears. -/
theorem acquire_unchanged_no_writes (fp : Bytes → Nat)
    (filename timestamp : String) (fetched existing : Bytes) (fs : FileSystem)
    (hex : lookupFile fs filename = some existing)
    (heq : fp fetched = fp existing) :
    acquire fp false filename timestamp fetched fs =
      { fs := fs, changed := false } := by
  unfold acquire
  rw [hex]
  exact if_pos heq.symm

/-- Sample fingerprint standing in for `calculate_md5` on concrete data. -/
def fpLen (b : Bytes) : Nat := b.length

/-- C1 witness: a directory holding the current file and one historical
copy; refetching identical bytes leaves it untouched. -/
theorem acquire_unchanged_no_writes_witness :
    acquire fpLen false "f.pdf" "20240102_000000" [1, 2]
        [("f.pdf", [1, 2]), ("f_20240101_000000.pdf", [9])] =
      { fs := [("f.pdf", [1, 2]), ("f_20240101_000000.pdf", [9])],
        changed := false } :=
  acquire_unchanged_no_writes fpLen "f.pdf" "20240102_000000" [1, 2] [1, 2]
    [("f.pdf", [1, 2]), ("f_20240101_000000.pdf", [9])] (by decide) rfl

/-- C10: whenever the run proceeds to a download (no current file, `force`,
or a differing fingerprint) it unconditionally writes the current file and a
timestamped historical copy of the fetched bytes — under `force` even when
the fetched bytes sit at the current name already — and two forced runs with
distinct timestamps accumulate two historical copies of the same content. -/
theorem acquire_download_creates_historical (fp : Bytes → Nat) (force : Bool)
    (filename timestamp : String) (fetched : Bytes) (fs : FileSystem)
    (h : lookupFile fs filename = none ∨ force = true ∨
      ∃ existing, lookupFile fs filename = some existing ∧
        fp existing ≠ fp fetched) :
    (acquire fp force filename timestamp fetched fs =
      { fs := setFile (setFile fs filename fetched)
          (historicalName filename timestamp) fetched, changed := true }) ∧
    lookupFile (acquire fp force filename timestamp fetched fs).fs
      (historicalName filename timestamp) = some fetched ∧
    ∀ t1 t2 : String, ∀ fs0 : FileSystem,
      historicalName filename t1 ≠ filename →
      historicalName filename t1 ≠ historicalName filename t2 →
      lookupFile (acquire fp true filename t2 fetched
          (acquire fp true filename t1 fetched fs0).fs).fs
        (historicalName filename t1) = some fetched ∧
      lookupFile (acquire fp true filename t2 fetched
          (acquire fp true filename t1 fetched fs0).fs).fs
        (historicalName filename t2) = some fetched := by
  have hfin : acquire fp force filename timestamp fetched fs =
      finishDownload fs filename timestamp fetched := by
    unfold acquire
    cases hlk : lookupFile fs filename with
    | none => cases force <;> rfl
    | some existing =>
      cases force with
      | true => rfl
      | false =>
        rcases h with h1 | h2 | ⟨e, he, hne⟩
        · rw [hlk] at h1
          exact absurd h1 (by simp)
        · exact absurd h2 (by simp)
        · rw [hlk] at he
          have hee : e = existing := (Option.some.inj he).symm
          subst hee
          exact if_neg hne
  refine ⟨by rw [hfin]; rfl, ?_, ?_⟩
  · rw [hfin]
    exact lookupFile_setFile_same _ _ _
  · intro t1 t2 fs0 h1 h2
    rw [acquire_force, acquire_force]
    constructor
    · show lookupFile (setFile (setFile (finishDownload fs0 filename t1 fetched).fs
        filename fetched) (historicalName filename t2) fetched)
        (historicalName filename t1) = some fetched
      rw [lookupFile_setFile_other _ _ _ _ h2,
        lookupFile_setFile_other _ _ _ _ h1]
      exact lookupFile_setFile_same _ _ _
    · exact lookupFile_setFile_same _ _ _

/-- C10 witness: a forced run over a directory already holding the identical
current file still creates the historical copy, and a second forced run adds
a second one. -/
theorem acquire_download_creates_historical_witness :
    (acquire fpLen true "f.pdf" "t1" [1, 2] [("f.pdf", [1, 2])] =
      { fs := setFile (setFile [("f.pdf", [1, 2])] "f.pdf" [1, 2])
          (historicalName "f.pdf" "t1") [1, 2], changed := true }) ∧
    lookupFile (acquire fpLen true "f.pdf" "t1" [1, 2]
        [("f.pdf", [1, 2])]).fs (historicalName "f.pdf" "t1") = some [1, 2] ∧
    (lookupFile (acquire fpLen true "f.pdf" "t2" [1, 2]
        (acquire fpLen true "f.pdf" "t1" [1, 2] [("f.pdf", [1, 2])]).fs).fs
      (historicalName "f.pdf" "t1") = some [1, 2] ∧
     lookupFile (acquire fpLen true "f.pdf" "t2" [1, 2]
        (acquire fpLen true "f.pdf" "t1" [1, 2] [("f.pdf", [1, 2])]).fs).fs
      (historicalName "f.pdf" "t2") = some [1, 2]) :=
  ⟨(acquire_download_creates_historical fpLen true "f.pdf" "t1" [1, 2]
      [("f.pdf", [1, 2])] (Or.inr (Or.inl rfl))).1,
   (acquire_download_creates_historical fpLen true "f.pdf" "t1" [1, 2]
      [("f.pdf", [1, 2])] (Or.inr (Or.inl rfl))).2.1,
   (acquire_download_creates_historical fpLen true "f.pdf" "t1" [1, 2]
      [("f.pdf", [1, 2])] (Or.inr (Or.inl rfl))).2.2 "t1" "t2"
      [("f.pdf", [1, 2])] (by decide) (by decide)⟩

end FoodScores
